import Mathlib

/-!
Verification development for the video-generation pipeline
(`src/api/video_generation.py` and `src/api/app.py`).

Python strings are modelled as `List Char`; Python string methods
(`split`, `replace`, `strip`, `lower`) are embedded as executable Lean
functions with the same semantics on the inputs the code uses.
The HTTP handlers and the pipeline stages are embedded as pure functions:
each external call (Kling video generation, TTS, ffmpeg, OpenAI) is an
oracle parameter of type `Except String _`, and the observable side
effects (writes of `job.json`, artifact files, stage invocations) are
returned as an explicit event trace.
-/

namespace VideoGen

abbrev PyStr := List Char

/-- Whitespace test used by Python `str.strip()` (on the characters that occur here). -/
def isWs (c : Char) : Bool := c.isWhitespace

/-- Python `str.lstrip()`. -/
def pyLStrip (s : PyStr) : PyStr := s.dropWhile isWs

/-- Python `str.rstrip()`. -/
def pyRStrip (s : PyStr) : PyStr := (s.reverse.dropWhile isWs).reverse

/-- Python `str.strip()`. -/
def pyStrip (s : PyStr) : PyStr := pyLStrip (pyRStrip s)

/-- Characters that survive `clean`: everything except whitespace and the
`'|'` sentence marker that `_split_script_into_chunks` uses internally. -/
def keepChar (c : Char) : Bool := !c.isWhitespace && !(c == '|')

/-- Normal form of a script for content-preservation statements: drop
whitespace and `'|'` (the splitter's internal sentence marker). -/
def clean (s : PyStr) : PyStr := s.filter keepChar

/-- Drop only whitespace (the spec's "modulo whitespace normalization"). -/
def removeWs (s : PyStr) : PyStr := s.filter (fun c => !c.isWhitespace)

/-- Python `s.split(sep)` for a one-character separator. -/
def split1 (sep : Char) : PyStr → List PyStr
  | [] => [[]]
  | c :: rest =>
    match split1 sep rest with
    | [] => [[]]
    | h :: t => if c = sep then [] :: h :: t else (c :: h) :: t

/-- Python `s.split(sep)` for a two-character separator (used with `"\n\n"`). -/
def split2 (a b : Char) : PyStr → List PyStr
  | [] => [[]]
  | [c] => [[c]]
  | c :: d :: rest =>
    if c = a ∧ d = b then [] :: split2 a b rest
    else
      match split2 a b (d :: rest) with
      | [] => [[c]]
      | h :: t => (c :: h) :: t

/-- Python `para.replace('. ', '.|')` from `_split_script_into_chunks`. -/
def replaceDotSpace : PyStr → PyStr
  | [] => []
  | [c] => [c]
  | c :: d :: rest =>
    if c = '.' ∧ d = ' ' then '.' :: '|' :: replaceDotSpace rest
    else c :: replaceDotSpace (d :: rest)

/-- Join a list of strings with a separator (used to state reconstruction). -/
def joinSep (sep : PyStr) : List PyStr → PyStr
  | [] => []
  | [x] => x
  | x :: xs => x ++ sep ++ joinSep sep xs

/-- The `chunks.append(current_chunk.strip())`-guarded-by-`if current_chunk`
step shared by both loops. -/
def flushCur (chunks : List PyStr) (cur : PyStr) : List PyStr :=
  if cur = [] then chunks else chunks ++ [pyStrip cur]

/-- Inner `for sentence in sentences` loop of `_split_script_into_chunks`
(state: accumulated `chunks`, `current_chunk`). -/
def sentLoop (m : Nat) : List PyStr → List PyStr → PyStr → (List PyStr × PyStr)
  | [], chunks, cur => (chunks, cur)
  | s :: rest, chunks, cur =>
    if cur.length + s.length + 1 ≤ m then
      sentLoop m rest chunks (cur ++ s ++ [' '])
    else
      sentLoop m rest (flushCur chunks cur) (s ++ [' '])

/-- Outer `for para in paragraphs` loop of `_split_script_into_chunks`. -/
def paraLoop (m : Nat) : List PyStr → List PyStr → PyStr → (List PyStr × PyStr)
  | [], chunks, cur => (chunks, cur)
  | p :: rest, chunks, cur =>
    if cur.length + p.length + 2 ≤ m then
      paraLoop m rest chunks (cur ++ p ++ ['\n', '\n'])
    else if m < p.length then
      paraLoop m rest
        (sentLoop m (split1 '|' (replaceDotSpace p)) (flushCur chunks cur) []).1
        (sentLoop m (split1 '|' (replaceDotSpace p)) (flushCur chunks cur) []).2
    else
      paraLoop m rest (flushCur chunks cur) (p ++ ['\n', '\n'])

/-- `VideoGenerationPipeline._split_script_into_chunks(script, max_chars)`. -/
def splitScript (script : PyStr) (m : Nat) : List PyStr :=
  if pyStrip (paraLoop m (split2 '\n' '\n' script) [] []).2 = [] then
    (paraLoop m (split2 '\n' '\n' script) [] []).1
  else
    (paraLoop m (split2 '\n' '\n' script) [] []).1
      ++ [pyStrip (paraLoop m (split2 '\n' '\n' script) [] []).2]

/-- The sentence units the splitter can emit oversized: every paragraph of the
script, sentence-split exactly the way the code does it. -/
def Units (script : PyStr) : List PyStr :=
  ((split2 '\n' '\n' script).map (fun p => split1 '|' (replaceDotSpace p))).flatten

/-! ### Merge-strategy selection (`merge_video_audio`, video_generation.py:433) -/

inductive MergeStrategy where
  | simpleCopy
  | loopVideo
  | trimToAudio
deriving DecidableEq, Repr

/-- The strategy branch of `merge_video_audio`: durations are measured by
ffprobe; the selection compares them with the hard-coded 0.5 s tolerance.
`if abs(video - audio) < 0.5: simple / elif audio > video: loop / else: trim`. -/
def chooseStrategy (videoDuration audioDuration : ℚ) : MergeStrategy :=
  if |videoDuration - audioDuration| < 0.5 then .simpleCopy
  else if audioDuration > videoDuration then .loopVideo
  else .trimToAudio

/-! ### Remote task polling (`generate_video_from_image`, video_generation.py:160-202) -/

/-- One status-poll response as the loop body observes it: HTTP failure,
provider error code, or a task status with the result video urls and a
status message. -/
inductive PollResp where
  | httpErr
  | apiErr
  | status (s : String) (videos : List String) (msg : String)
deriving DecidableEq, Repr

/-- Outcome of the poll loop. -/
inductive PollOutcome where
  | gotUrl (u : String)
  | genFailed (msg : String)
  | timedOut
deriving DecidableEq, Repr

/-- A poll response the claim calls terminal: provider status `succeed` or `failed`. -/
def isTerminal : PollResp → Prop
  | .status s _ _ => s = "succeed" ∨ s = "failed"
  | _ => False

instance (r : PollResp) : Decidable (isTerminal r) := by
  cases r <;> simp [isTerminal] <;> infer_instance

/-- The `while attempt < max_attempts` loop of `generate_video_from_image`.
`resp i` is the status response observed on iteration `i` (0-based);
the result carries the final value of `attempt` = the number of polling
iterations performed. -/
def pollAux (resp : Nat → PollResp) (maxA : Nat) (attempt : Nat) : PollOutcome × Nat :=
  if _h : attempt < maxA then
    match resp attempt with
    | .httpErr => pollAux resp maxA (attempt + 1)
    | .apiErr => pollAux resp maxA (attempt + 1)
    | .status s videos msg =>
      if s = "succeed" then
        match videos with
        | [] => pollAux resp maxA (attempt + 1)
        | u :: _ => (.gotUrl u, attempt + 1)
      else if s = "failed" then
        (.genFailed ("Kling generation failed: " ++ msg), attempt + 1)
      else
        pollAux resp maxA (attempt + 1)
  else
    (.timedOut, attempt)
termination_by maxA - attempt
decreasing_by all_goals omega

/-- The poll loop with the code's constants: `max_attempts = 120`, starting
at `attempt = 0`; on timeout the code raises "Video generation timed out". -/
def pollKling (resp : Nat → PollResp) : PollOutcome × Nat :=
  pollAux resp 120 0

/-! ### ElevenLabs voice resolution (`_convert_with_elevenlabs`, video_generation.py:244-256) -/

/-- Python `str.lower()` (ASCII, which covers every key of the voice table). -/
def pyLower (s : PyStr) : PyStr := s.map Char.toLower

/-- The `ELEVENLABS_VOICES` table, reduced to the name → provider voice id map. -/
def elevenVoices : List (PyStr × PyStr) :=
  [("george".toList, "JBFqnCBsd6RMkjVDRZzb".toList),
   ("daniel".toList, "onwK4e9ZLuTAKqWW03F9".toList),
   ("bill".toList, "pqHfZKP75CvOlQylNhV4".toList),
   ("clyde".toList, "2EiwWnXFnvU5JabPnv8n".toList),
   ("adam".toList, "pNInz6obpgDQGcFmaJgB".toList),
   ("antoni".toList, "ErXwobaYiN019PkySvjV".toList),
   ("rachel".toList, "21m00Tcm4TlvDq8ikWAM".toList),
   ("drew".toList, "29vD33N1CtxCmqQRPOHJ".toList)]

/-- Python `dict` lookup on the voice table (keys compared by equality). -/
def lookupVoice : List (PyStr × PyStr) → PyStr → Option PyStr
  | [], _ => none
  | (k, v) :: rest, key => if key = k then some v else lookupVoice rest key

/-- `voice_lower = voice.lower(); voice_id = table[voice_lower].id if found
else voice` — unknown strings are passed through unchanged as raw ids. -/
def resolveVoiceId (voice : PyStr) : PyStr :=
  match lookupVoice elevenVoices (pyLower voice) with
  | some id => id
  | none => voice

/-! ### Chunked synthesis temp-file lifecycle (`_convert_with_elevenlabs` /
`_convert_with_openai`, chunked branch) -/

/-- Temp file name for chunk `i`: `f"{output_path.stem}_chunk_{i}.mp3"` with
stem `commentary`. -/
def tempChunkFile (i : Nat) : String := "commentary_chunk_" ++ toString i ++ ".mp3"

/-- The `for i, chunk in enumerate(chunks)` write loop. `tts i` says whether
the i-th TTS request succeeds; `acc` is the list of temp files already on
disk. On a failed request the exception propagates with the files written so
far still on disk (`.error`); on success all temp files written are returned. -/
def writeChunks (tts : Nat → Bool) : List Nat → List String → Except (List String) (List String)
  | [], acc => .ok acc
  | i :: rest, acc =>
    if tts i then writeChunks tts rest (acc ++ [tempChunkFile i])
    else .error acc

/-- Chunked synthesis for `numChunks` chunks: write every chunk to a temp
file, write the concat list file, run ffmpeg concat (`concatOk`), then unlink
the temp files and the list file.  The result carries the temp files that are
still on disk when the function returns (`.ok`) or raises (`.error`). -/
def chunkedSynth (numChunks : Nat) (tts : Nat → Bool) (concatOk : Bool) :
    Except (List String) (List String) :=
  match writeChunks tts (List.range numChunks) [] with
  | .error files => .error files
  | .ok temps =>
    if concatOk then .ok []
    else .error (temps ++ ["commentary_filelist.txt"])

/-! ### Flask handlers (`src/api/app.py`) as pure functions.

External calls are oracle parameters (`Except String _`); the persisted
`job.json` content and the event trace are explicit outputs.  The file
system is passed in (`fs`) so that claims about cached artifacts can be
stated; the source handlers never consult it, and the embedding reflects
that. -/

/-- A `job.json` record as `generate_video_preview` / `add_commentary` write it. -/
structure JobMeta where
  job_id : String
  status : String
  image_path : String
  motion_prompt : String
  duration : Int
  preview_path : Option String := none
  script : Option String := none
  voice : Option String := none
  final_video : Option String := none
  audio_path : Option String := none
deriving DecidableEq, Repr

/-- Observable side effects of a handler run: a `job.json` write with the
given status, an artifact file write, or a pipeline stage invocation
(`video_gen` submits to Kling, `tts`, `merge`, `metadata`, `motion_prompt`). -/
inductive Ev where
  | putJob (status : String)
  | putFile (name : String)
  | stage (name : String)
deriving DecidableEq, Repr

/-- An HTTP response: error with status code and message, or success with
job id and reported status. -/
inductive Resp where
  | err (code : Nat) (msg : String)
  | ok (jobId : String) (status : String)
deriving DecidableEq, Repr

structure HandlerOut where
  response : Resp
  persisted : Option JobMeta
  trace : List Ev
deriving DecidableEq, Repr

/-- JSON body of `POST /api/generate-video` after image handling:
`motion_prompt`, optional `duration`, and the resolved local path / url of
the image (none when neither `image_url` nor `image_base64` was given). -/
structure GenReq where
  motionPrompt : Option String
  duration : Option Int
  image : Option String
deriving DecidableEq, Repr

/-- `generate_video_preview` (app.py:76-196), JSON branch.  `jobId` is the
freshly generated uuid prefix; `videoGen` is the outcome of
`pipe.generate_video_from_image` (which always submits a new Kling task when
invoked); `fs` is the set of files on disk, which the handler never reads. -/
def generateVideoPreview (req : GenReq) (jobId : String)
    (videoGen : Except String String) (fs : List String) : HandlerOut :=
  match req.image with
  | none => ⟨.err 400 "No image provided (image_url or image_base64)", none, []⟩
  | some img =>
    match req.motionPrompt with
    | none => ⟨.err 400 "No motion_prompt provided", none, []⟩
    | some mp =>
      let dur := req.duration.getD 10
      if dur ∉ ([5, 10] : List Int) then
        ⟨.err 400 "Duration must be 5 or 10 seconds", none, []⟩
      else
        let meta0 : JobMeta :=
          { job_id := jobId, status := "generating_video", image_path := img,
            motion_prompt := mp, duration := dur }
        match videoGen with
        | .error e =>
          ⟨.err 500 e, some meta0, [.putJob "generating_video", .stage "video_gen"]⟩
        | .ok _vp =>
          let meta1 := { meta0 with
            status := "preview_ready",
            preview_path := some ("video_work/" ++ jobId ++ "/preview.mp4") }
          ⟨.ok jobId "preview_ready", some meta1,
            [.putJob "generating_video", .stage "video_gen",
             .putFile "preview.mp4", .putJob "preview_ready"]⟩

/-- JSON body of `POST /api/add-commentary`. -/
structure AddReq where
  jobId : Option String
  script : Option String
  voice : Option String
deriving DecidableEq, Repr

/-- `add_commentary` (app.py:231-341).  `store` is the current `job.json`
content (none = job not found); `previewOnDisk` is whether the recorded
preview file exists; `synth`, `merge`, `metaGen` are the outcomes of
`convert_script_to_speech`, `merge_video_audio`, `generate_youtube_metadata`. -/
def addCommentary (req : AddReq) (store : Option JobMeta) (previewOnDisk : Bool)
    (synth : Except String Unit) (merge : Except String Unit)
    (metaGen : Except String String) : HandlerOut :=
  match req.jobId with
  | none => ⟨.err 400 "No job_id provided", store, []⟩
  | some jid =>
    match req.script with
    | none => ⟨.err 400 "No script provided", store, []⟩
    | some script =>
      match store with
      | none => ⟨.err 404 "Job not found", none, []⟩
      | some jm =>
        if jm.status ≠ "preview_ready" then
          ⟨.err 400 ("Job not ready for commentary. Status: " ++ jm.status), some jm, []⟩
        else if ¬ (jm.preview_path.isSome ∧ previewOnDisk) then
          ⟨.err 404 "Preview video not found", some jm, []⟩
        else
          let jm1 := { jm with status := "adding_commentary",
                               script := some script,
                               voice := some (req.voice.getD "onyx") }
          match synth with
          | .error e => ⟨.err 500 e, some jm1, [.putJob "adding_commentary", .stage "tts"]⟩
          | .ok _ =>
            match merge with
            | .error e =>
              ⟨.err 500 e, some jm1,
                [.putJob "adding_commentary", .stage "tts", .putFile "commentary.mp3",
                 .stage "merge"]⟩
            | .ok _ =>
              match metaGen with
              | .error e =>
                ⟨.err 500 e, some jm1,
                  [.putJob "adding_commentary", .stage "tts", .putFile "commentary.mp3",
                   .stage "merge", .putFile "final_video.mp4", .stage "metadata"]⟩
              | .ok _md =>
                let jm2 := { jm1 with status := "complete",
                                      final_video := some "final_video.mp4",
                                      audio_path := some "commentary.mp3" }
                ⟨.ok jid "complete", some jm2,
                  [.putJob "adding_commentary", .stage "tts", .putFile "commentary.mp3",
                   .stage "merge", .putFile "final_video.mp4", .stage "metadata",
                   .putFile "script.txt", .putFile "metadata.json", .putJob "complete"]⟩

/-- Result of `VideoGenerationPipeline.process` (video_generation.py:564-660):
either the raised exception's message or the returned job id and metadata. -/
inductive PResp where
  | raised (msg : String)
  | returned (jobId : String) (metadata : String)
deriving DecidableEq, Repr

structure ProcOut where
  result : PResp
  persisted : Option JobMeta
  trace : List Ev
deriving DecidableEq, Repr

/-- `VideoGenerationPipeline.process` — the legacy single-call workflow.
It creates a job directory but never writes a `job.json` record
(`persisted = none` always) and never writes a preview artifact. -/
def processLegacy (jobId : String) (script : String) (motionPrompt : Option String)
    (mpGen : Except String String) (videoGen : Except String String)
    (synth : Except String Unit) (merge : Except String Unit)
    (metaGen : Except String String) : ProcOut :=
  let mpStep : List Ev × Except String String :=
    match motionPrompt with
    | some mp => ([], .ok mp)
    | none => ([.stage "motion_prompt"], mpGen)
  match mpStep.2 with
  | .error e => ⟨.raised e, none, mpStep.1⟩
  | .ok _mp =>
    match videoGen with
    | .error e => ⟨.raised e, none, mpStep.1 ++ [.stage "video_gen"]⟩
    | .ok _vp =>
      match synth with
      | .error e => ⟨.raised e, none, mpStep.1 ++ [.stage "video_gen", .stage "tts"]⟩
      | .ok _ =>
        match merge with
        | .error e =>
          ⟨.raised e, none,
            mpStep.1 ++ [.stage "video_gen", .stage "tts", .putFile "commentary.mp3",
                         .stage "merge"]⟩
        | .ok _ =>
          match metaGen with
          | .error e =>
            ⟨.raised e, none,
              mpStep.1 ++ [.stage "video_gen", .stage "tts", .putFile "commentary.mp3",
                           .stage "merge", .putFile "final_video.mp4", .stage "metadata"]⟩
          | .ok md =>
            ⟨.returned jobId md, none,
              mpStep.1 ++ [.stage "video_gen", .stage "tts", .putFile "commentary.mp3",
                           .stage "merge", .putFile "final_video.mp4", .stage "metadata",
                           .putFile "script.txt", .putFile "metadata.json"]⟩

/-- The two-step workflow `generate_video_preview` then `add_commentary` on
the same job, run back to back with the same stage oracles. -/
def twoStepFlow (req : GenReq) (jobId : String) (script voice : String)
    (videoGen : Except String String) (synth : Except String Unit)
    (merge : Except String Unit) (metaGen : Except String String)
    (fs : List String) : HandlerOut :=
  let r1 := generateVideoPreview req jobId videoGen fs
  match r1.response with
  | .err c m => ⟨.err c m, r1.persisted, r1.trace⟩
  | .ok _ _ =>
    let r2 := addCommentary ⟨some jobId, some script, some voice⟩ r1.persisted true
                synth merge metaGen
    ⟨r2.response, r2.persisted, r1.trace ++ r2.trace⟩

/-- The stage invocations of a trace. -/
def stagesOf (t : List Ev) : List String :=
  t.filterMap (fun e => match e with | .stage n => some n | _ => none)

/-- The artifact file writes of a trace. -/
def filesOf (t : List Ev) : List String :=
  t.filterMap (fun e => match e with | .putFile n => some n | _ => none)

/-- The sequence of statuses written to `job.json` by a trace. -/
def jobWritesOf (t : List Ev) : List String :=
  t.filterMap (fun e => match e with | .putJob s => some s | _ => none)

/-- Whether an HTTP response is a success. -/
def respOk : Resp → Bool
  | .ok _ _ => true
  | _ => false

/-- Whether a `process` run returned (rather than raised). -/
def presOk : PResp → Bool
  | .returned _ _ => true
  | _ => false

/-- Invariant for an emitted chunk: within budget, or the strip of one of the
allowed sentence units `S`. -/
def OkChunk (m : Nat) (S : List PyStr) (c : PyStr) : Prop :=
  c.length ≤ m ∨ ∃ u ∈ S, c = pyStrip u

/-- Invariant for the running `current_chunk`: its strip is within budget, or
is the strip of one of the allowed sentence units `S`. -/
def OkCur (m : Nat) (S : List PyStr) (cur : PyStr) : Prop :=
  (pyStrip cur).length ≤ m ∨ ∃ u ∈ S, pyStrip cur = pyStrip u

/-! ## Theorems -/

/-! ### Character-level helper lemmas for the splitter -/

theorem clean_append (s t : PyStr) : clean (s ++ t) = clean s ++ clean t :=
  List.filter_append ..

theorem clean_cons (c : Char) (s : PyStr) : clean (c :: s) = clean [c] ++ clean s := by
  by_cases h : keepChar c = true <;> simp [clean, List.filter_cons, h]

theorem clean_drop_cons (c : Char) (s : PyStr) (h : keepChar c = false) :
    clean (c :: s) = clean s := by
  simp [clean, List.filter_cons, h]

theorem clean_ws_cons (c : Char) (s : PyStr) (h : isWs c = true) :
    clean (c :: s) = clean s := by
  refine clean_drop_cons c s ?_
  simp only [isWs] at h
  simp [keepChar, h]

theorem clean_dropWhile_isWs (s : PyStr) : clean (s.dropWhile isWs) = clean s := by
  induction s with
  | nil => rfl
  | cons c rest ih =>
    by_cases h : isWs c = true
    · rw [List.dropWhile_cons, if_pos h, ih, clean_ws_cons c rest h]
    · rw [List.dropWhile_cons, if_neg h]

theorem clean_reverse (s : PyStr) : clean s.reverse = (clean s).reverse :=
  List.filter_reverse ..

theorem clean_pyRStrip (s : PyStr) : clean (pyRStrip s) = clean s := by
  unfold pyRStrip
  rw [clean_reverse, clean_dropWhile_isWs, clean_reverse, List.reverse_reverse]

theorem clean_pyStrip (s : PyStr) : clean (pyStrip s) = clean s := by
  unfold pyStrip pyLStrip
  rw [clean_dropWhile_isWs, clean_pyRStrip]

theorem clean_pyStrip_nil (s : PyStr) (h : pyStrip s = []) : clean s = [] := by
  rw [← clean_pyStrip, h]; rfl

theorem len_dropWhile_le (p : Char → Bool) : ∀ l : List Char,
    (l.dropWhile p).length ≤ l.length := by
  intro l
  induction l with
  | nil => simp
  | cons c rest ih =>
    rw [List.dropWhile_cons]
    by_cases h : p c = true
    · rw [if_pos h]; simp; omega
    · rw [if_neg h]

theorem pyStrip_length_le (s : PyStr) : (pyStrip s).length ≤ s.length := by
  unfold pyStrip pyLStrip pyRStrip
  calc (((s.reverse.dropWhile isWs).reverse).dropWhile isWs).length
      ≤ ((s.reverse.dropWhile isWs).reverse).length := len_dropWhile_le ..
    _ = (s.reverse.dropWhile isWs).length := List.length_reverse ..
    _ ≤ s.reverse.length := len_dropWhile_le ..
    _ = s.length := List.length_reverse ..

theorem dropWhile_append_all {p : Char → Bool} :
    ∀ (l₁ l₂ : List Char), (∀ c ∈ l₁, p c = true) →
      (l₁ ++ l₂).dropWhile p = l₂.dropWhile p := by
  intro l₁ l₂ h
  induction l₁ with
  | nil => rfl
  | cons c rest ih =>
    simp only [List.cons_append, List.dropWhile_cons, h c (by simp), if_pos]
    exact ih (fun x hx => h x (by simp [hx]))

theorem pyStrip_append_ws (s suf : PyStr) (h : ∀ c ∈ suf, isWs c = true) :
    pyStrip (s ++ suf) = pyStrip s := by
  unfold pyStrip pyRStrip
  rw [List.reverse_append,
    dropWhile_append_all _ _ (fun c hc => h c (List.mem_reverse.mp hc))]

theorem pyStrip_append_space (s : PyStr) : pyStrip (s ++ [' ']) = pyStrip s :=
  pyStrip_append_ws s [' '] (by decide)

theorem pyStrip_append_nn (s : PyStr) : pyStrip (s ++ ['\n', '\n']) = pyStrip s :=
  pyStrip_append_ws s ['\n', '\n'] (by decide)

theorem split1_ne_nil (sep : Char) (s : PyStr) : split1 sep s ≠ [] := by
  cases s with
  | nil => simp [split1]
  | cons c rest =>
    unfold split1
    cases split1 sep rest with
    | nil => simp
    | cons h t =>
      by_cases hc : c = sep <;> simp [hc]

theorem split2_ne_nil (a b : Char) : ∀ s : PyStr, split2 a b s ≠ []
  | [] => by simp [split2]
  | [c] => by simp [split2]
  | c :: d :: rest => by
    unfold split2
    by_cases h : c = a ∧ d = b
    · simp [h]
    · simp only [if_neg h]
      cases split2 a b (d :: rest) <;> simp

theorem clean_flatten_split1_pipe : ∀ s : PyStr, clean (split1 '|' s).flatten = clean s
  | [] => by simp [split1, clean]
  | c :: rest => by
    have ih := clean_flatten_split1_pipe rest
    cases h : split1 '|' rest with
    | nil => exact absurd h (split1_ne_nil _ _)
    | cons hd tl =>
      rw [h] at ih
      by_cases hc : c = '|'
      · subst hc
        simp only [split1, h, if_pos rfl, List.flatten_cons, List.flatten_nil,
          List.nil_append]
        rw [clean_drop_cons _ _ (by decide)]
        simpa [List.flatten_cons] using ih
      · simp only [split1, h, if_neg hc, List.flatten_cons, List.cons_append]
        rw [clean_cons c (hd ++ tl.flatten), clean_cons c rest, ← ih]
        simp [List.flatten_cons]

theorem clean_flatten_split2_nn : ∀ s : PyStr, clean (split2 '\n' '\n' s).flatten = clean s
  | [] => by simp [split2, clean]
  | [c] => by simp [split2, clean]
  | c :: d :: rest => by
    by_cases h : c = '\n' ∧ d = '\n'
    · have ih := clean_flatten_split2_nn rest
      obtain ⟨h1, h2⟩ := h
      subst h1; subst h2
      rw [show split2 '\n' '\n' ('\n' :: '\n' :: rest) = [] :: split2 '\n' '\n' rest from by
            simp [split2]]
      rw [List.flatten_cons, List.nil_append, ih, clean_drop_cons _ _ (by decide),
        clean_drop_cons _ _ (by decide)]
    · have ih := clean_flatten_split2_nn (d :: rest)
      cases hs : split2 '\n' '\n' (d :: rest) with
      | nil => exact absurd hs (split2_ne_nil _ _ _)
      | cons hd tl =>
        rw [hs] at ih
        simp only [split2, if_neg h, hs, List.flatten_cons, List.cons_append]
        rw [clean_cons c (hd ++ tl.flatten), clean_cons c (d :: rest), ← ih]
        simp [List.flatten_cons]

theorem clean_replaceDotSpace : ∀ s : PyStr, clean (replaceDotSpace s) = clean s
  | [] => rfl
  | [c] => rfl
  | c :: d :: rest => by
    by_cases h : c = '.' ∧ d = ' '
    · have ih := clean_replaceDotSpace rest
      obtain ⟨h1, h2⟩ := h
      subst h1; subst h2
      rw [show replaceDotSpace ('.' :: ' ' :: rest) = '.' :: '|' :: replaceDotSpace rest from by
            simp [replaceDotSpace]]
      rw [clean_cons '.' ('|' :: replaceDotSpace rest),
        clean_drop_cons '|' (replaceDotSpace rest) (by decide), ih,
        clean_cons '.' (' ' :: rest), clean_drop_cons ' ' rest (by decide)]
    · have ih := clean_replaceDotSpace (d :: rest)
      simp only [replaceDotSpace, if_neg h]
      rw [clean_cons c (replaceDotSpace (d :: rest)), clean_cons c (d :: rest), ih]

/-! ### Loop invariants for the splitter -/

theorem clean_nil : clean ([] : PyStr) = [] := rfl

theorem keepChar_space : keepChar ' ' = false := by decide

theorem keepChar_nl : keepChar '\n' = false := by decide

theorem clean_flatten_flushCur (chunks : List PyStr) (cur : PyStr) :
    clean (flushCur chunks cur).flatten = clean chunks.flatten ++ clean cur := by
  unfold flushCur
  by_cases hc : cur = []
  · rw [if_pos hc, hc, clean_nil, List.append_nil]
  · rw [if_neg hc, List.flatten_append, clean_append]
    simp only [List.flatten_cons, List.flatten_nil, List.append_nil]
    rw [clean_pyStrip]

theorem sentLoop_clean (m : Nat) : ∀ (sents chunks : List PyStr) (cur : PyStr),
    clean ((sentLoop m sents chunks cur).1.flatten ++ (sentLoop m sents chunks cur).2)
      = clean (chunks.flatten ++ cur ++ sents.flatten)
  | [], chunks, cur => by simp [sentLoop]
  | s :: rest, chunks, cur => by
    rw [sentLoop]
    by_cases h : cur.length + s.length + 1 ≤ m
    · rw [if_pos h, sentLoop_clean m rest chunks (cur ++ s ++ [' '])]
      simp [clean_append, List.flatten_cons, List.append_assoc, clean, List.filter_cons,
        keepChar_space]
    · rw [if_neg h, sentLoop_clean m rest (flushCur chunks cur) (s ++ [' '])]
      simp only [clean_append, clean_flatten_flushCur, List.flatten_cons]
      simp [clean_append, List.append_assoc, clean, List.filter_cons, keepChar_space]

theorem paraLoop_clean (m : Nat) : ∀ (paras chunks : List PyStr) (cur : PyStr),
    clean ((paraLoop m paras chunks cur).1.flatten ++ (paraLoop m paras chunks cur).2)
      = clean (chunks.flatten ++ cur ++ paras.flatten)
  | [], chunks, cur => by simp [paraLoop]
  | p :: rest, chunks, cur => by
    rw [paraLoop]
    by_cases h : cur.length + p.length + 2 ≤ m
    · rw [if_pos h, paraLoop_clean m rest chunks (cur ++ p ++ ['\n', '\n'])]
      simp [clean_append, List.flatten_cons, List.append_assoc, clean, List.filter_cons,
        keepChar_nl]
    · rw [if_neg h]
      by_cases hp : m < p.length
      · rw [if_pos hp]
        rw [paraLoop_clean m rest _ _]
        have hs := sentLoop_clean m (split1 '|' (replaceDotSpace p)) (flushCur chunks cur) []
        simp only [clean_append, clean_nil, List.append_nil, clean_flatten_flushCur,
          clean_flatten_split1_pipe, clean_replaceDotSpace] at hs
        simp only [clean_append, List.flatten_cons]
        rw [hs]
        simp [List.append_assoc]
      · rw [if_neg hp, paraLoop_clean m rest (flushCur chunks cur) (p ++ ['\n', '\n'])]
        simp only [clean_append, clean_flatten_flushCur, List.flatten_cons]
        simp [clean_append, List.append_assoc, clean, List.filter_cons, keepChar_nl]

theorem splitScript_clean (t : PyStr) (m : Nat) :
    clean (splitScript t m).flatten = clean t := by
  have h := paraLoop_clean m (split2 '\n' '\n' t) [] []
  simp only [List.flatten_nil, List.nil_append] at h
  rw [clean_append, clean_flatten_split2_nn] at h
  unfold splitScript
  by_cases hs : pyStrip (paraLoop m (split2 '\n' '\n' t) [] []).2 = []
  · rw [if_pos hs]
    have h2 : clean (paraLoop m (split2 '\n' '\n' t) [] []).2 = [] :=
      clean_pyStrip_nil _ hs
    rw [h2, List.append_nil] at h
    exact h
  · rw [if_neg hs, List.flatten_append]
    rw [show ([pyStrip (paraLoop m (split2 '\n' '\n' t) [] []).2] : List PyStr).flatten
          = pyStrip (paraLoop m (split2 '\n' '\n' t) [] []).2 from by simp]
    rw [clean_append, clean_pyStrip]
    exact h

theorem okChunk_of_okCur {m : Nat} {S : List PyStr} {cur : PyStr}
    (h : OkCur m S cur) : OkChunk m S (pyStrip cur) := by
  cases h with
  | inl h => exact Or.inl h
  | inr h => exact Or.inr h

theorem okChunk_flushCur {m : Nat} {S : List PyStr} {chunks : List PyStr} {cur : PyStr}
    (hch : ∀ c ∈ chunks, OkChunk m S c) (hcur : OkCur m S cur) :
    ∀ c ∈ flushCur chunks cur, OkChunk m S c := by
  intro c hc
  unfold flushCur at hc
  by_cases he : cur = []
  · rw [if_pos he] at hc
    exact hch c hc
  · rw [if_neg he] at hc
    rcases List.mem_append.mp hc with hin | hin
    · exact hch c hin
    · rw [List.mem_singleton.mp hin]
      exact okChunk_of_okCur hcur

theorem sentLoop_ok (m : Nat) (S : List PyStr) : ∀ (sents chunks : List PyStr) (cur : PyStr),
    (∀ s ∈ sents, s ∈ S) → (∀ c ∈ chunks, OkChunk m S c) → OkCur m S cur →
    (∀ c ∈ (sentLoop m sents chunks cur).1, OkChunk m S c) ∧
      OkCur m S (sentLoop m sents chunks cur).2
  | [], chunks, cur => by
    intro _ hch hcur
    rw [sentLoop]
    exact ⟨hch, hcur⟩
  | s :: rest, chunks, cur => by
    intro hS hch hcur
    rw [sentLoop]
    by_cases h : cur.length + s.length + 1 ≤ m
    · rw [if_pos h]
      refine sentLoop_ok m S rest chunks (cur ++ s ++ [' '])
        (fun x hx => hS x (List.mem_cons_of_mem _ hx)) hch ?_
      left
      have hl : (cur ++ s ++ [' ']).length = cur.length + s.length + 1 := by
        simp only [List.length_append, List.length_cons, List.length_nil]
      calc (pyStrip (cur ++ s ++ [' '])).length
          ≤ (cur ++ s ++ [' ']).length := pyStrip_length_le _
        _ = cur.length + s.length + 1 := hl
        _ ≤ m := h
    · rw [if_neg h]
      refine sentLoop_ok m S rest (flushCur chunks cur) (s ++ [' '])
        (fun x hx => hS x (List.mem_cons_of_mem _ hx)) (okChunk_flushCur hch hcur) ?_
      right
      exact ⟨s, hS s (List.mem_cons_self _ _), by rw [pyStrip_append_space]⟩

theorem paraLoop_ok (m : Nat) (S : List PyStr) : ∀ (paras chunks : List PyStr) (cur : PyStr),
    (∀ p ∈ paras, ∀ u ∈ split1 '|' (replaceDotSpace p), u ∈ S) →
    (∀ c ∈ chunks, OkChunk m S c) → OkCur m S cur →
    (∀ c ∈ (paraLoop m paras chunks cur).1, OkChunk m S c) ∧
      OkCur m S (paraLoop m paras chunks cur).2
  | [], chunks, cur => by
    intro _ hch hcur
    rw [paraLoop]
    exact ⟨hch, hcur⟩
  | p :: rest, chunks, cur => by
    intro hU hch hcur
    rw [paraLoop]
    by_cases h : cur.length + p.length + 2 ≤ m
    · rw [if_pos h]
      refine paraLoop_ok m S rest chunks (cur ++ p ++ ['\n', '\n'])
        (fun x hx => hU x (List.mem_cons_of_mem _ hx)) hch ?_
      left
      have hl : (cur ++ p ++ ['\n', '\n']).length = cur.length + p.length + 2 := by
        simp only [List.length_append, List.length_cons, List.length_nil]
      calc (pyStrip (cur ++ p ++ ['\n', '\n'])).length
          ≤ (cur ++ p ++ ['\n', '\n']).length := pyStrip_length_le _
        _ = cur.length + p.length + 2 := hl
        _ ≤ m := h
    · rw [if_neg h]
      by_cases hp : m < p.length
      · rw [if_pos hp]
        have hsent := sentLoop_ok m S (split1 '|' (replaceDotSpace p)) (flushCur chunks cur) []
          (hU p (List.mem_cons_self _ _)) (okChunk_flushCur hch hcur)
          (Or.inl (by simp [pyStrip, pyLStrip, pyRStrip]))
        exact paraLoop_ok m S rest _ _
          (fun x hx => hU x (List.mem_cons_of_mem _ hx)) hsent.1 hsent.2
      · rw [if_neg hp]
        refine paraLoop_ok m S rest (flushCur chunks cur) (p ++ ['\n', '\n'])
          (fun x hx => hU x (List.mem_cons_of_mem _ hx)) (okChunk_flushCur hch hcur) ?_
        left
        calc (pyStrip (p ++ ['\n', '\n'])).length
            = (pyStrip p).length := by rw [pyStrip_append_nn]
          _ ≤ p.length := pyStrip_length_le _
          _ ≤ m := Nat.le_of_not_lt hp

theorem splitScript_oversized (t : PyStr) (m : Nat) :
    ∀ c ∈ splitScript t m, m < c.length → ∃ u ∈ Units t, c = pyStrip u := by
  have hU : ∀ p ∈ split2 '\n' '\n' t, ∀ u ∈ split1 '|' (replaceDotSpace p), u ∈ Units t := by
    intro p hp u hu
    unfold Units
    exact List.mem_flatten.mpr ⟨split1 '|' (replaceDotSpace p),
      List.mem_map_of_mem _ hp, hu⟩
  have h := paraLoop_ok m (Units t) (split2 '\n' '\n' t) [] [] hU
    (by intro c hc; exact absurd hc (List.not_mem_nil c))
    (Or.inl (by simp [pyStrip, pyLStrip, pyRStrip]))
  intro c hc hlen
  unfold splitScript at hc
  by_cases hs : pyStrip (paraLoop m (split2 '\n' '\n' t) [] []).2 = []
  · rw [if_pos hs] at hc
    rcases h.1 c hc with hle | hu
    · omega
    · exact hu
  · rw [if_neg hs] at hc
    rcases List.mem_append.mp hc with hin | hin
    · rcases h.1 c hin with hle | hu
      · omega
      · exact hu
    · obtain rfl := List.mem_singleton.mp hin
      rcases okChunk_of_okCur h.2 with hle | hu
      · omega
      · exact hu

/-! ### C4 — merge-strategy selection -/

/-- C4: the merge-strategy selection is total and deterministic (it is a pure
function on duration pairs) and follows the rule: difference strictly below
the 0.5 tolerance gives SimpleCopy; otherwise audio longer gives LoopVideo;
otherwise the video is strictly longer and it gives TrimToAudio; with the
four concrete instances select(10,10.2)=SimpleCopy, select(10,25)=LoopVideo,
select(25,10)=TrimToAudio, select(10,10.6)=LoopVideo. -/
theorem mergeStrategy_selection :
    (∀ v a : ℚ,
      (|v - a| < 0.5 → chooseStrategy v a = .simpleCopy) ∧
      (0.5 ≤ |v - a| → v < a → chooseStrategy v a = .loopVideo) ∧
      (0.5 ≤ |v - a| → a ≤ v → a < v ∧ chooseStrategy v a = .trimToAudio)) ∧
    chooseStrategy 10 10.2 = .simpleCopy ∧
    chooseStrategy 10 25 = .loopVideo ∧
    chooseStrategy 25 10 = .trimToAudio ∧
    chooseStrategy 10 10.6 = .loopVideo := by
  refine ⟨fun v a => ⟨fun h => ?_, fun h1 h2 => ?_, fun h1 h2 => ?_⟩, ?_, ?_, ?_, ?_⟩
  · rw [chooseStrategy, if_pos h]
  · rw [chooseStrategy, if_neg (not_lt.mpr h1), if_pos h2]
  · have hav : a < v := by
      have habs : |v - a| = v - a := abs_of_nonneg (by linarith)
      rw [habs] at h1
      linarith
    exact ⟨hav, by rw [chooseStrategy, if_neg (not_lt.mpr h1), if_neg (not_lt.mpr hav.le)]⟩
  all_goals norm_num [chooseStrategy, abs_lt, le_abs]

/-- Witness for C4: the rule applied at the spec's concrete duration pairs. -/
theorem mergeStrategy_selection_witness :
    chooseStrategy 10 10.2 = .simpleCopy ∧ chooseStrategy 10 25 = .loopVideo ∧
    chooseStrategy 25 10 = .trimToAudio :=
  ⟨(mergeStrategy_selection.1 10 10.2).1 (by norm_num [abs_lt]),
   (mergeStrategy_selection.1 10 25).2.1 (by norm_num [le_abs]) (by norm_num),
   ((mergeStrategy_selection.1 25 10).2.2 (by norm_num [le_abs]) (by norm_num)).2⟩

/-! ### C6 — poll-loop bound -/

theorem pollAux_no_terminal (resp : Nat → PollResp) (h : ∀ i, ¬ isTerminal (resp i)) :
    ∀ (n attempt maxA : Nat), maxA - attempt = n → attempt ≤ maxA →
      pollAux resp maxA attempt = (.timedOut, maxA) := by
  intro n
  induction n with
  | zero =>
    intro attempt maxA h0 hle
    have hnl : ¬ attempt < maxA := by omega
    have heq : attempt = maxA := by omega
    rw [pollAux, dif_neg hnl, heq]
  | succ n ih =>
    intro attempt maxA h0 hle
    have hlt : attempt < maxA := by omega
    cases hresp : resp attempt with
    | httpErr =>
      rw [pollAux, dif_pos hlt, hresp]
      exact ih (attempt + 1) maxA (by omega) (by omega)
    | apiErr =>
      rw [pollAux, dif_pos hlt, hresp]
      exact ih (attempt + 1) maxA (by omega) (by omega)
    | status st videos msg =>
      have hr := h attempt
      rw [hresp] at hr
      simp only [isTerminal, not_or] at hr
      rw [pollAux, dif_pos hlt, hresp]
      simp only [if_neg hr.1, if_neg hr.2]
      exact ih (attempt + 1) maxA (by omega) (by omega)

theorem pollAux_le (resp : Nat → PollResp) :
    ∀ (n attempt maxA : Nat), maxA - attempt = n → attempt ≤ maxA →
      (pollAux resp maxA attempt).2 ≤ maxA := by
  intro n
  induction n with
  | zero =>
    intro attempt maxA h0 hle
    have hnl : ¬ attempt < maxA := by omega
    rw [pollAux, dif_neg hnl]
    exact hle
  | succ n ih =>
    intro attempt maxA h0 hle
    have hlt : attempt < maxA := by omega
    cases hresp : resp attempt with
    | httpErr =>
      rw [pollAux, dif_pos hlt, hresp]
      exact ih (attempt + 1) maxA (by omega) (by omega)
    | apiErr =>
      rw [pollAux, dif_pos hlt, hresp]
      exact ih (attempt + 1) maxA (by omega) (by omega)
    | status st videos msg =>
      rw [pollAux, dif_pos hlt]
      simp only [hresp]
      by_cases hs : st = "succeed"
      · rw [if_pos hs]
        cases videos with
        | nil => exact ih (attempt + 1) maxA (by omega) (by omega)
        | cons u us => exact hlt
      · rw [if_neg hs]
        by_cases hf : st = "failed"
        · rw [if_pos hf]
          exact hlt
        · rw [if_neg hf]
          exact ih (attempt + 1) maxA (by omega) (by omega)

/-- C6: for every response sequence in which no poll returns a terminal
`succeed`/`failed` provider status, the poll loop performs exactly the 120
`max_attempts` iterations and ends in the timeout outcome; and on any
response sequence whatsoever it never performs more than 120 iterations. -/
theorem pollLoop_bounded :
    ∀ resp : Nat → PollResp,
      ((∀ i, ¬ isTerminal (resp i)) → pollKling resp = (.timedOut, 120)) ∧
      (pollKling resp).2 ≤ 120 :=
  fun resp =>
    ⟨fun h => pollAux_no_terminal resp h 120 0 120 rfl (by omega),
     pollAux_le resp 120 0 120 rfl (by omega)⟩

/-- Witness for C6: a provider that always reports `processing` drives the
loop to timeout after exactly 120 iterations. -/
theorem pollLoop_bounded_witness :
    pollKling (fun _ => .status "processing" [] "") = (.timedOut, 120) :=
  (pollLoop_bounded _).1 (fun _ => by simp [isTerminal])

/-! ### C9 — voice resolution case sensitivity -/

theorem lookupVoice_some_key : ∀ (tbl : List (PyStr × PyStr)) (key v : PyStr),
    lookupVoice tbl key = some v → key ∈ tbl.map Prod.fst
  | [], key, v => by
    intro h
    simp [lookupVoice] at h
  | (k, w) :: rest, key, v => by
    intro h
    rw [lookupVoice] at h
    by_cases hk : key = k
    · simp [hk]
    · rw [if_neg hk] at h
      simp only [List.map_cons, List.mem_cons]
      exact Or.inr (lookupVoice_some_key rest key v h)

theorem elevenVoices_keys_lower_fixed :
    ∀ k ∈ elevenVoices.map Prod.fst, pyLower k = k := by decide

/-- C9 is violated for strings outside the named table: an unknown mixed-case
voice string is passed through unchanged while its lowercase form is a
different raw id, so resolution is not case-insensitive for every string. -/
theorem resolveVoice_case_cex :
    resolveVoiceId ("ABC").toList ≠ resolveVoiceId (pyLower ("ABC").toList) ∧
    resolveVoiceId ("ABC").toList = ("ABC").toList := by decide

/-- C9 (amended): voice resolution is case-insensitive over the named voice
table only — for every string whose lowercase form is a key of
`ELEVENLABS_VOICES`, resolving the string and resolving its lowercase form
select the same provider voice id; other strings resolve to themselves. -/
theorem resolveVoice_tableCaseInsensitive :
    ∀ v : PyStr, lookupVoice elevenVoices (pyLower v) ≠ none →
      resolveVoiceId v = resolveVoiceId (pyLower v) := by
  intro v h
  obtain ⟨id, hid⟩ : ∃ id, lookupVoice elevenVoices (pyLower v) = some id := by
    cases hl : lookupVoice elevenVoices (pyLower v) with
    | none => exact absurd hl h
    | some id => exact ⟨id, rfl⟩
  have hfix : pyLower (pyLower v) = pyLower v :=
    elevenVoices_keys_lower_fixed _ (lookupVoice_some_key _ _ _ hid)
  unfold resolveVoiceId
  rw [hfix, hid]

/-- Witness for C9 (amended): `GEORGE` and `george` resolve identically. -/
theorem resolveVoice_tableCaseInsensitive_witness :
    resolveVoiceId ("GEORGE").toList = resolveVoiceId (pyLower ("GEORGE").toList) :=
  resolveVoice_tableCaseInsensitive ("GEORGE").toList (by decide)

/-! ### C10 — duration default -/

/-- C10: a JSON generate-video request with no `duration` field is created
with duration 10, which always passes the `duration in [5, 10]` validation,
so omitting the field can never produce the duration ValidationError. -/
theorem defaultDuration_validates :
    ∀ (mp img jobId : String) (g : Except String String) (fs : List String),
      (generateVideoPreview ⟨some mp, none, some img⟩ jobId g fs).response ≠
        Resp.err 400 "Duration must be 5 or 10 seconds" ∧
      Option.map JobMeta.duration
          (generateVideoPreview ⟨some mp, none, some img⟩ jobId g fs).persisted = some 10 := by
  intro mp img jobId g fs
  cases g <;> simp [generateVideoPreview]

/-! ### C3 — addCommentary state guard -/

/-- C3: invoking addCommentary on a job whose persisted status is anything
other than `preview_ready` (in particular `created` or `complete`) returns
the 400 invalid-state error whose message names the actual status (the
required status `preview_ready` is the guard), runs neither synthesis nor
merging, and leaves the persisted record unchanged. -/
theorem addCommentary_invalidState :
    ∀ (jid script : String) (voice : Option String) (jm : JobMeta) (previewOnDisk : Bool)
      (synth merge : Except String Unit) (metaGen : Except String String),
      jm.status ≠ "preview_ready" →
      (addCommentary ⟨some jid, some script, voice⟩ (some jm) previewOnDisk synth merge
          metaGen).response
        = Resp.err 400 ("Job not ready for commentary. Status: " ++ jm.status) ∧
      Ev.stage "tts" ∉ (addCommentary ⟨some jid, some script, voice⟩ (some jm) previewOnDisk
          synth merge metaGen).trace ∧
      Ev.stage "merge" ∉ (addCommentary ⟨some jid, some script, voice⟩ (some jm) previewOnDisk
          synth merge metaGen).trace ∧
      (addCommentary ⟨some jid, some script, voice⟩ (some jm) previewOnDisk synth merge
          metaGen).persisted = some jm := by
  intro jid script voice jm previewOnDisk synth merge metaGen h
  simp [addCommentary, h]

/-- Witness for C3: jobs persisted as `created` and as `complete` are both
rejected with the invalid-state error naming their actual status. -/
theorem addCommentary_invalidState_witness :
    (addCommentary ⟨some "j1", some "hello", none⟩
        (some ⟨"j1", "created", "img.png", "pan", 10, none, none, none, none, none⟩)
        true (.ok ()) (.ok ()) (.ok "md")).response
      = Resp.err 400 ("Job not ready for commentary. Status: " ++ "created") ∧
    (addCommentary ⟨some "j1", some "hello", none⟩
        (some ⟨"j1", "complete", "img.png", "pan", 10, none, none, none, none, none⟩)
        true (.ok ()) (.ok ()) (.ok "md")).response
      = Resp.err 400 ("Job not ready for commentary. Status: " ++ "complete") :=
  ⟨(addCommentary_invalidState "j1" "hello" none _ true (.ok ()) (.ok ()) (.ok "md")
      (by decide)).1,
   (addCommentary_invalidState "j1" "hello" none _ true (.ok ()) (.ok ()) (.ok "md")
      (by decide)).1⟩

/-! ### C1 — failed status persistence -/

/-- C1 is violated: when the video-generation stage fails, the handler
surfaces the 500 error but the persisted `job.json` status remains
`generating_video` — no `failed` status is ever recorded. -/
theorem failedStatusNotPersisted_cex :
    (generateVideoPreview ⟨some "pan", some 10, some "cat.png"⟩ "j1"
        (.error "Kling API error: 500 - overloaded") []).response
      = Resp.err 500 "Kling API error: 500 - overloaded" ∧
    Option.map JobMeta.status (generateVideoPreview ⟨some "pan", some 10, some "cat.png"⟩ "j1"
        (.error "Kling API error: 500 - overloaded") []).persisted = some "generating_video" ∧
    Option.map JobMeta.status (generateVideoPreview ⟨some "pan", some 10, some "cat.png"⟩ "j1"
        (.error "Kling API error: 500 - overloaded") []).persisted ≠ some "failed" := by
  decide

/-- C1 (amended): on an unrecoverable stage error the orchestrator surfaces
the error to the caller (HTTP 500) but does not record status `failed`: the
persisted record keeps the in-progress status written at stage start —
`generating_video` when video generation fails, and `adding_commentary`
whichever commentary sub-stage fails (speech synthesis, the ffmpeg merge,
or metadata generation). -/
theorem failedStage_keepsInProgressStatus :
    (∀ (mp img jobId e : String) (dur : Int) (fs : List String),
        dur ∈ ([5, 10] : List Int) →
        (generateVideoPreview ⟨some mp, some dur, some img⟩ jobId (.error e) fs).response
          = Resp.err 500 e ∧
        Option.map JobMeta.status
            (generateVideoPreview ⟨some mp, some dur, some img⟩ jobId (.error e) fs).persisted
          = some "generating_video") ∧
    (∀ (jid script e : String) (voice : Option String) (jm : JobMeta)
        (merge : Except String Unit) (metaGen : Except String String),
        jm.status = "preview_ready" → jm.preview_path.isSome →
        (addCommentary ⟨some jid, some script, voice⟩ (some jm) true (.error e) merge
            metaGen).response = Resp.err 500 e ∧
        Option.map JobMeta.status (addCommentary ⟨some jid, some script, voice⟩ (some jm) true
            (.error e) merge metaGen).persisted = some "adding_commentary") ∧
    (∀ (jid script e : String) (voice : Option String) (jm : JobMeta)
        (metaGen : Except String String),
        jm.status = "preview_ready" → jm.preview_path.isSome →
        (addCommentary ⟨some jid, some script, voice⟩ (some jm) true (.ok ()) (.error e)
            metaGen).response = Resp.err 500 e ∧
        Option.map JobMeta.status (addCommentary ⟨some jid, some script, voice⟩ (some jm) true
            (.ok ()) (.error e) metaGen).persisted = some "adding_commentary") ∧
    (∀ (jid script e : String) (voice : Option String) (jm : JobMeta),
        jm.status = "preview_ready" → jm.preview_path.isSome →
        (addCommentary ⟨some jid, some script, voice⟩ (some jm) true (.ok ()) (.ok ())
            (.error e)).response = Resp.err 500 e ∧
        Option.map JobMeta.status (addCommentary ⟨some jid, some script, voice⟩ (some jm) true
            (.ok ()) (.ok ()) (.error e)).persisted = some "adding_commentary") := by
  refine ⟨?_, ?_, ?_, ?_⟩
  · intro mp img jobId e dur fs hdur
    simp [generateVideoPreview, hdur]
  · intro jid script e voice jm merge metaGen hst hp
    simp [addCommentary, hst, hp]
  · intro jid script e voice jm metaGen hst hp
    simp [addCommentary, hst, hp]
  · intro jid script e voice jm hst hp
    simp [addCommentary, hst, hp]

/-- Witness for C1 (amended): a failing video generation, and a commentary
run failing at synthesis, at merge, and at metadata generation, each leave
the in-progress status persisted. -/
theorem failedStage_keepsInProgressStatus_witness :
    Option.map JobMeta.status (generateVideoPreview ⟨some "pan", some 10, some "cat.png"⟩ "j1"
        (.error "boom") []).persisted = some "generating_video" ∧
    Option.map JobMeta.status (addCommentary ⟨some "j1", some "script", none⟩
        (some ⟨"j1", "preview_ready", "img", "pan", 10, some "pv.mp4", none, none, none, none⟩)
        true (.error "boom") (.ok ()) (.ok "md")).persisted = some "adding_commentary" ∧
    Option.map JobMeta.status (addCommentary ⟨some "j1", some "script", none⟩
        (some ⟨"j1", "preview_ready", "img", "pan", 10, some "pv.mp4", none, none, none, none⟩)
        true (.ok ()) (.error "boom") (.ok "md")).persisted = some "adding_commentary" ∧
    Option.map JobMeta.status (addCommentary ⟨some "j1", some "script", none⟩
        (some ⟨"j1", "preview_ready", "img", "pan", 10, some "pv.mp4", none, none, none, none⟩)
        true (.ok ()) (.ok ()) (.error "boom")).persisted = some "adding_commentary" :=
  ⟨(failedStage_keepsInProgressStatus.1 "pan" "cat.png" "j1" "boom" 10 [] (by decide)).2,
   (failedStage_keepsInProgressStatus.2.1 "j1" "script" "boom" none
      ⟨"j1", "preview_ready", "img", "pan", 10, some "pv.mp4", none, none, none, none⟩
      (.ok ()) (.ok "md") rfl (by decide)).2,
   (failedStage_keepsInProgressStatus.2.2.1 "j1" "script" "boom" none
      ⟨"j1", "preview_ready", "img", "pan", 10, some "pv.mp4", none, none, none, none⟩
      (.ok "md") rfl (by decide)).2,
   (failedStage_keepsInProgressStatus.2.2.2 "j1" "script" "boom" none
      ⟨"j1", "preview_ready", "img", "pan", 10, some "pv.mp4", none, none, none, none⟩
      rfl (by decide)).2⟩

/-! ### C2 — generateVideo caching -/

/-- C2 is violated: with a preview artifact already on disk, the
generate-video handler still invokes the remote submission stage and returns
a fresh job with a new preview, not the cached reference. -/
theorem generateVideo_noCache_cex :
    Ev.stage "video_gen" ∈ (generateVideoPreview ⟨some "pan", some 10, some "cat.png"⟩ "newjob"
        (.ok "kling_video_t1.mp4") ["video_work/oldjob/preview.mp4"]).trace ∧
    (generateVideoPreview ⟨some "pan", some 10, some "cat.png"⟩ "newjob"
        (.ok "kling_video_t1.mp4") ["video_work/oldjob/preview.mp4"]).response
      = Resp.ok "newjob" "preview_ready" := by
  decide

/-- C2 (amended): the generate-video handler never consults the disk — its
result is independent of the file-system contents — and every valid request
invokes the remote video-generation submission; no cached preview is ever
reused. -/
theorem generateVideo_alwaysSubmits :
    (∀ (req : GenReq) (jobId : String) (g : Except String String) (fs fs' : List String),
        generateVideoPreview req jobId g fs = generateVideoPreview req jobId g fs') ∧
    (∀ (mp img jobId : String) (dur : Option Int) (g : Except String String)
        (fs : List String),
        dur.getD 10 ∈ ([5, 10] : List Int) →
        Ev.stage "video_gen"
          ∈ (generateVideoPreview ⟨some mp, dur, some img⟩ jobId g fs).trace) := by
  constructor
  · intro req jobId g fs fs'
    rfl
  · intro mp img jobId dur g fs h
    cases g <;> simp [generateVideoPreview, h]

/-- Witness for C2 (amended): a valid request reaches the submission stage. -/
theorem generateVideo_alwaysSubmits_witness :
    Ev.stage "video_gen" ∈ (generateVideoPreview ⟨some "pan", some 10, some "cat.png"⟩ "j1"
        (.ok "v.mp4") []).trace :=
  generateVideo_alwaysSubmits.2 "pan" "cat.png" "j1" (some 10) (.ok "v.mp4") [] (by decide)

/-! ### C7 — legacy workflow vs two-step workflow -/

/-- C7 is violated: on the same succeeding stages, the two-step workflow
persists four statuses, a job record and a preview artifact, while the
legacy `process` persists no job record, no statuses and no preview. -/
theorem legacyProcess_stateMachine_cex :
    jobWritesOf (twoStepFlow ⟨some "m", some 10, some "img"⟩ "j1" "s" "v" (.ok "vp") (.ok ())
        (.ok ()) (.ok "md") []).trace
      = ["generating_video", "preview_ready", "adding_commentary", "complete"] ∧
    jobWritesOf (processLegacy "j2" "s" (some "m") (.ok "m") (.ok "vp") (.ok ()) (.ok ())
        (.ok "md")).trace = [] ∧
    "preview.mp4" ∈ filesOf (twoStepFlow ⟨some "m", some 10, some "img"⟩ "j1" "s" "v"
        (.ok "vp") (.ok ()) (.ok ()) (.ok "md") []).trace ∧
    "preview.mp4" ∉ filesOf (processLegacy "j2" "s" (some "m") (.ok "m") (.ok "vp") (.ok ())
        (.ok ()) (.ok "md")).trace ∧
    (processLegacy "j2" "s" (some "m") (.ok "m") (.ok "vp") (.ok ()) (.ok ())
        (.ok "md")).persisted = none := by
  decide

/-- C7 (amended): on every oracle outcome the legacy single-call workflow
runs exactly the same stage sequence as create → generateVideo →
addCommentary and writes the same artifact files apart from the preview, and
it succeeds exactly when the two-step flow does; but it does not drive the
job state machine: it persists no job record and records no statuses. -/
theorem legacyProcess_sameStages_noPersistence :
    ∀ (mp img jobId jobId2 script voice : String) (dur : Int)
      (mpGen videoGen : Except String String) (synth merge : Except String Unit)
      (metaGen : Except String String) (fs : List String),
      dur ∈ ([5, 10] : List Int) →
      stagesOf (twoStepFlow ⟨some mp, some dur, some img⟩ jobId script voice videoGen synth
          merge metaGen fs).trace
        = stagesOf (processLegacy jobId2 script (some mp) mpGen videoGen synth merge
            metaGen).trace ∧
      (processLegacy jobId2 script (some mp) mpGen videoGen synth merge metaGen).persisted
        = none ∧
      jobWritesOf (processLegacy jobId2 script (some mp) mpGen videoGen synth merge
          metaGen).trace = [] ∧
      (filesOf (twoStepFlow ⟨some mp, some dur, some img⟩ jobId script voice videoGen synth
          merge metaGen fs).trace).filter (fun f => !(f == "preview.mp4"))
        = filesOf (processLegacy jobId2 script (some mp) mpGen videoGen synth merge
            metaGen).trace ∧
      respOk (twoStepFlow ⟨some mp, some dur, some img⟩ jobId script voice videoGen synth
          merge metaGen fs).response
        = presOk (processLegacy jobId2 script (some mp) mpGen videoGen synth merge
            metaGen).result := by
  intro mp img jobId jobId2 script voice dur mpGen videoGen synth merge metaGen fs hdur
  rcases videoGen with e1 | v1 <;> rcases synth with e2 | u2 <;> rcases merge with e3 | u3 <;>
    rcases metaGen with e4 | md <;>
      simp [twoStepFlow, processLegacy, generateVideoPreview, addCommentary, hdur,
        stagesOf, filesOf, jobWritesOf, respOk, presOk]

/-- Witness for C7 (amended): with all stages succeeding the stage sequences
of the two workflows coincide. -/
theorem legacyProcess_sameStages_noPersistence_witness :
    stagesOf (twoStepFlow ⟨some "m", some 10, some "img"⟩ "j1" "s" "v" (.ok "vp") (.ok ())
        (.ok ()) (.ok "md") []).trace
      = stagesOf (processLegacy "j2" "s" (some "m") (.ok "m") (.ok "vp") (.ok ()) (.ok ())
          (.ok "md")).trace :=
  (legacyProcess_sameStages_noPersistence "m" "img" "j1" "j2" "s" "v" 10 (.ok "m") (.ok "vp")
    (.ok ()) (.ok ()) (.ok "md") [] (by decide)).1

/-! ### C8 — chunked-synthesis temp files -/

theorem writeChunks_all_ok (tts : Nat → Bool) : ∀ (l : List Nat) (acc : List String),
    (∀ i ∈ l, tts i = true) → writeChunks tts l acc = .ok (acc ++ l.map tempChunkFile)
  | [], acc => by
    intro _
    simp [writeChunks]
  | i :: rest, acc => by
    intro h
    rw [writeChunks, if_pos (h i (List.mem_cons_self _ _)),
      writeChunks_all_ok tts rest (acc ++ [tempChunkFile i])
        (fun j hj => h j (List.mem_cons_of_mem _ hj))]
    simp

theorem writeChunks_error_files (tts : Nat → Bool) : ∀ (l : List Nat) (acc fs : List String),
    writeChunks tts l acc = .error fs → fs = acc ++ (l.takeWhile tts).map tempChunkFile
  | [], acc, fs => by
    intro h
    simp [writeChunks] at h
  | i :: rest, acc, fs => by
    intro h
    rw [writeChunks] at h
    by_cases ht : tts i = true
    · rw [if_pos ht] at h
      have hrec := writeChunks_error_files tts rest (acc ++ [tempChunkFile i]) fs h
      rw [hrec, List.takeWhile_cons, if_pos ht]
      simp
    · rw [if_neg ht] at h
      have hacc : acc = fs := by
        injection h
      rw [← hacc, List.takeWhile_cons, if_neg ht]
      simp

/-- C8 (amended): the per-chunk temp audio files are deleted on the success
path (none remain when synthesize returns), but on a failure path they are
not: when a TTS request fails mid-chunk, exactly the temp files of the
already-completed chunk prefix remain on disk, and when the ffmpeg concat
step fails after all chunks were written, every chunk's temp file plus the
concat list file remain — for every chunk count. -/
theorem chunkedSynth_cleanup :
    (∀ (n : Nat) (tts : Nat → Bool), (∀ i, i < n → tts i = true) →
        chunkedSynth n tts true = .ok []) ∧
    (∀ (n : Nat) (tts : Nat → Bool) (fs : List String),
        chunkedSynth n tts true = .error fs →
        fs = ((List.range n).takeWhile tts).map tempChunkFile) ∧
    (∀ (n : Nat) (tts : Nat → Bool), (∀ i, i < n → tts i = true) →
        chunkedSynth n tts false
          = .error ((List.range n).map tempChunkFile ++ ["commentary_filelist.txt"])) := by
  refine ⟨?_, ?_, ?_⟩
  · intro n tts h
    unfold chunkedSynth
    rw [writeChunks_all_ok tts (List.range n) [] (fun i hi => h i (List.mem_range.mp hi))]
    simp
  · intro n tts fs h
    unfold chunkedSynth at h
    cases hw : writeChunks tts (List.range n) [] with
    | error files =>
      rw [hw] at h
      obtain rfl : files = fs := by
        simpa using h
      simpa using writeChunks_error_files tts (List.range n) [] files hw
    | ok temps =>
      rw [hw] at h
      simp at h
  · intro n tts h
    unfold chunkedSynth
    rw [writeChunks_all_ok tts (List.range n) [] (fun i hi => h i (List.mem_range.mp hi))]
    simp

/-- Witness for C8 (amended): two successful chunks leave no temp file;
a failure after chunk 0 leaves exactly chunk 0's temp file; a concat failure
after two successful chunks leaves both temp files and the list file. -/
theorem chunkedSynth_cleanup_witness :
    chunkedSynth 2 (fun _ => true) true = .ok [] ∧
    (["commentary_chunk_0.mp3"] : List String)
      = ((List.range 2).takeWhile (fun i => decide (i = 0))).map tempChunkFile ∧
    chunkedSynth 2 (fun _ => true) false
      = .error ((List.range 2).map tempChunkFile ++ ["commentary_filelist.txt"]) :=
  ⟨chunkedSynth_cleanup.1 2 (fun _ => true) (fun _ _ => rfl),
   chunkedSynth_cleanup.2.1 2 (fun i => decide (i = 0)) ["commentary_chunk_0.mp3"] rfl,
   chunkedSynth_cleanup.2.2 2 (fun _ => true) (fun _ _ => rfl)⟩

/-- C8 is violated on failure paths: a TTS failure on the second chunk
leaves the first chunk's temp file on disk, and an ffmpeg concat failure
leaves every temp file and the list file. -/
theorem chunkedSynth_leftover_cex :
    chunkedSynth 2 (fun i => decide (i = 0)) true = .error ["commentary_chunk_0.mp3"] ∧
    chunkedSynth 2 (fun _ => true) false
      = .error ["commentary_chunk_0.mp3", "commentary_chunk_1.mp3",
                "commentary_filelist.txt"] :=
  ⟨rfl, rfl⟩

/-! ### C5 — splitter content preservation and length bound -/

/-- C5 is violated as stated: for the text `ab|cd` with budget 3 the chunks
are `ab` and `cd`, and no concatenation of them with the paragraph/sentence
separators (or any whitespace) reproduces the original content even modulo
whitespace normalization — the `|` character is silently lost, because the
splitter uses `|` as its internal sentence marker. -/
theorem splitScript_pipe_cex :
    splitScript ("ab|cd").toList 3 = [['a', 'b'], ['c', 'd']] ∧
    removeWs (splitScript ("ab|cd").toList 3).flatten ≠ removeWs ("ab|cd").toList ∧
    (∀ sep ∈ [(" ").toList, ("\n\n").toList, (". ").toList, ([] : PyStr)],
        removeWs (joinSep sep (splitScript ("ab|cd").toList 3))
          ≠ removeWs ("ab|cd").toList) := by
  decide

/-- C5 (amended): concatenating the chunks of split(t, m) reproduces t's
content modulo whitespace normalization and modulo loss of `|` characters
(the splitter's internal sentence marker); and every chunk's length is ≤ m
except chunks that are single (stripped) sentence units longer than m, which
are emitted oversized and unsplit. -/
theorem splitScript_content_and_bound :
    (∀ (t : PyStr) (m : Nat), clean (splitScript t m).flatten = clean t) ∧
    (∀ (t : PyStr) (m : Nat) (c : PyStr), c ∈ splitScript t m → m < c.length →
        ∃ u ∈ Units t, c = pyStrip u) :=
  ⟨splitScript_clean, fun t m c hc hl => splitScript_oversized t m c hc hl⟩

/-- Witness for C5 (amended): a 6-character single-sentence script with
budget 3 is content-preserved and its one oversized chunk is a sentence
unit. -/
theorem splitScript_content_and_bound_witness :
    clean (splitScript ("abcdef").toList 3).flatten = clean ("abcdef").toList ∧
    ∃ u ∈ Units ("abcdef").toList, ("abcdef").toList = pyStrip u :=
  ⟨splitScript_content_and_bound.1 ("abcdef").toList 3,
   splitScript_content_and_bound.2 ("abcdef").toList 3 ("abcdef").toList (by decide)
     (by decide)⟩

end VideoGen
